import Mathlib

/-!
Shallow embedding of the hobbly-app repository's authorization gate,
activity directory client (mock data path, the active one: USE_MOCK_DATA = true),
and pagination window computation, with theorems checking the specification's
claims about them.

Conventions of the embedding:
* the mutable `mockActivities` array is passed explicitly as a `store : List Activity`;
  mutating operations return the new store;
* JavaScript `Date` timestamps are `Nat` values passed in as a `now` parameter;
  `getMonth()` / `getFullYear()` projections are the `createdMonth` / `createdYear`
  fields of a record;
* `Math.floor(Math.random() * 200)` is modelled by a parameter `rand < 200`;
* JavaScript `Array.prototype.findIndex` is `findIndex` below (`-1` becomes `none`);
* JavaScript `String.prototype.toLowerCase` is `strToLower` (per-character lowering);
* `URLSearchParams` is an association list; `URLSearchParams.set` replaces the
  value of an existing key (keeping its position) or appends the pair.
-/

/-- JavaScript `s.toLowerCase()`: lowercase every character. -/
def strToLower (s : String) : String := String.mk (s.data.map Char.toLower)

/-- The authenticated identity as the gate sees it (`useAuth().user`);
roles stay strings, as in the source. -/
structure Identity where
  id : String
  email : String
  role : String
deriving Repr, DecidableEq

/-- Outcome of the `ProtectedRoute` component. -/
inductive RouteDecision where
  | Loading
  | RedirectToLogin
  | RedirectToUnauthorized
  | Render
deriving Repr, DecidableEq

/-- `rolesToCheck.some(role => ...)` from `ProtectedRoute.tsx` lines 96-104:
admin passes always; organizer passes when the required role (lowercased) is
`organizer` or `user`; otherwise the user's role must equal the required role.
`userRole` is already lowercased by the caller. -/
def hasRequiredRole (userRole : String) (rolesToCheck : List String) : Bool :=
  rolesToCheck.any fun role =>
    let requiredRoleNormalized := strToLower role
    if userRole == "admin" then true
    else if userRole == "organizer" &&
        (requiredRoleNormalized == "organizer" || requiredRoleNormalized == "user") then true
    else userRole == requiredRoleNormalized

/-- The decision logic of `ProtectedRoute` (`ProtectedRoute.tsx` lines 41-113):
loading spinner while `loading`; redirect to login when no user; with a
non-empty role requirement, render exactly when `hasRequiredRole`;
otherwise render. `requiredRole` (singular) takes precedence when present. -/
def protectedRouteDecision (loading : Bool) (user : Option Identity)
    (requiredRole : Option String) (requiredRoles : Option (List String)) : RouteDecision :=
  if loading then RouteDecision.Loading
  else
    match user with
    | none => RouteDecision.RedirectToLogin
    | some u =>
      let rolesToCheck := match requiredRole with
        | some r => [r]
        | none => requiredRoles.getD []
      if rolesToCheck.length > 0 then
        let userRole := strToLower u.role
        if !(hasRequiredRole userRole rolesToCheck) then RouteDecision.RedirectToUnauthorized
        else RouteDecision.Render
      else RouteDecision.Render

/-- The specification's `allowed` formula, written from the spec's words
(§4.1): `identity.role == admin OR (identity.role == organizer AND
requiredRoles ⊆ \x7borganizer, user\x7d) OR identity.role ∈ requiredRoles`,
case-insensitively. Kept separate from the source embedding so the two can
be compared. -/
def allowedSpec (role : String) (requiredRoles : List String) : Bool :=
  let r := strToLower role
  r == "admin"
  || (r == "organizer" &&
      requiredRoles.all (fun q => strToLower q == "organizer" || strToLower q == "user"))
  || requiredRoles.any (fun q => strToLower q == r)

/-- The amended `allowed` formula: the organizer clause uses intersection
(some required role is `organizer` or `user`) instead of the spec's subset
condition. -/
def allowedAmended (role : String) (requiredRoles : List String) : Bool :=
  let r := strToLower role
  r == "admin"
  || (r == "organizer" &&
      requiredRoles.any (fun q => strToLower q == "organizer" || strToLower q == "user"))
  || requiredRoles.any (fun q => strToLower q == r)

/-- C1, counterexample: an organizer identity with required roles
`["admin", "user"]` is rendered by the code (`some` required role matches via
the organizer/user clause), while the spec's `allowed` formula is false there
(`\x7badmin, user\x7d ⊄ \x7borganizer, user\x7d` and `organizer ∉ \x7badmin, user\x7d`). -/
theorem protectedRoute_subset_clause_counterexample :
    protectedRouteDecision false (some ⟨"user-1", "o@example.com", "organizer"⟩)
      none (some ["admin", "user"]) = RouteDecision.Render
    ∧ allowedSpec "organizer" ["admin", "user"] = false := by
  constructor <;> decide

/-- C1, amended: for a non-loading call with a present identity and a
non-empty required-role list, the decision is `Render` exactly when the
amended `allowed` holds (admin, OR organizer with some required role in
\x7borganizer, user\x7d, OR the identity's role occurring among the required
roles, case-insensitively), and `RedirectToUnauthorized` otherwise; an
admin identity is always rendered. -/
theorem protectedRoute_decision_amended (u : Identity) (requiredRoles : List String)
    (hne : requiredRoles ≠ []) :
    (protectedRouteDecision false (some u) none (some requiredRoles) = RouteDecision.Render
      ↔ allowedAmended u.role requiredRoles = true)
    ∧ (allowedAmended u.role requiredRoles = false →
        protectedRouteDecision false (some u) none (some requiredRoles)
          = RouteDecision.RedirectToUnauthorized)
    ∧ (strToLower u.role = "admin" →
        protectedRouteDecision false (some u) none (some requiredRoles)
          = RouteDecision.Render) := by
  have hlen : requiredRoles.length > 0 := List.length_pos.mpr hne
  have hkey : (hasRequiredRole (strToLower u.role) requiredRoles = true)
      ↔ (allowedAmended u.role requiredRoles = true) := by
    obtain ⟨x, hx⟩ := List.exists_mem_of_ne_nil requiredRoles hne
    unfold hasRequiredRole allowedAmended
    simp only [List.any_eq_true, Bool.or_eq_true, Bool.and_eq_true, beq_iff_eq]
    by_cases hadmin : strToLower u.role = "admin"
    · simp only [hadmin]
      constructor
      · intro _
        tauto
      · intro _
        exact ⟨x, hx, by simp⟩
    · by_cases horg : strToLower u.role = "organizer"
      · simp only [hadmin, horg, if_pos, if_neg, if_true, if_false]
        simp only [eq_self_iff_true, true_and, false_or]
        aesop
      · simp only [hadmin, horg]
        aesop
  refine ⟨?_, ?_, ?_⟩
  · by_cases hh : hasRequiredRole (strToLower u.role) requiredRoles = true
    · constructor
      · intro _
        exact hkey.mp hh
      · intro _
        unfold protectedRouteDecision
        simp [hlen, hh]
    · constructor
      · intro hr
        exfalso
        unfold protectedRouteDecision at hr
        simp [hlen, hh] at hr
      · intro ha
        exact absurd (hkey.mpr ha) hh
  · intro hfalse
    have hh : hasRequiredRole (strToLower u.role) requiredRoles = false := by
      by_contra hc
      have hc' : hasRequiredRole (strToLower u.role) requiredRoles = true := by
        revert hc
        cases hasRequiredRole (strToLower u.role) requiredRoles <;> simp
      rw [hkey.mp hc'] at hfalse
      cases hfalse
    unfold protectedRouteDecision
    simp [hlen, hh]
  · intro hadm
    have hall : allowedAmended u.role requiredRoles = true := by
      unfold allowedAmended
      simp [hadm]
    have hh := hkey.mpr hall
    unfold protectedRouteDecision
    simp [hlen, hh]

/-- C1, witness for the amended theorem at a concrete input: an organizer
identity with required roles `["user"]` is rendered. -/
theorem protectedRoute_decision_amended_witness :
    protectedRouteDecision false (some ⟨"user-1", "o@example.com", "organizer"⟩)
      none (some ["user"]) = RouteDecision.Render :=
  (protectedRoute_decision_amended ⟨"user-1", "o@example.com", "organizer"⟩ ["user"]
    (by simp)).1.mpr (by decide)

/-- The Activity entity (the fields the specified operations read or write).
`userId` is the owning organizer (the spec's `organizerId`); `createdMonth`
and `createdYear` are the `getMonth()` / `getFullYear()` projections of
`createdAt`; timestamps are `Nat`. -/
structure Activity where
  id : String
  title : String
  description : String
  location : String
  price : Nat
  userId : String
  isDeleted : Bool
  createdMonth : Nat
  createdYear : Nat
  createdAt : Nat
  updatedAt : Nat
deriving Repr, DecidableEq

/-- The error outcomes of the directory client's mock path. -/
inductive ApiError where
  | NotFound
  | PermissionDenied
deriving Repr, DecidableEq

/-- The `pagination` object of a listing result. -/
structure PaginationMeta where
  page : Nat
  limit : Nat
  total : Nat
  totalPages : Nat
  hasNext : Bool
  hasPrevious : Bool
deriving Repr, DecidableEq

/-- A listing result: the page of activities plus pagination metadata. -/
structure PageResult where
  activities : List Activity
  pagination : PaginationMeta
deriving Repr, DecidableEq

/-- The form data fields `updateActivity` copies onto the stored record. -/
structure ActivityFormData where
  title : String
  description : String
  location : String
  price : Nat
deriving Repr, DecidableEq

/-- JavaScript `Array.prototype.findIndex`: the index of the first element
satisfying `p` (`-1`, here `none`, when there is none). -/
def findIndex {α : Type} (p : α → Bool) : List α → Option Nat
  | [] => none
  | a :: rest => if p a then some 0 else (findIndex p rest).map (· + 1)

/-- `getUserActivities` (`activities.api.ts` lines 251-288, mock path):
filter the store by owner (or the `current-user` sentinel, which matches
everything), fall back to the whole store when the filter comes back empty,
slice out the requested page, and build the pagination metadata with
`totalPages = Math.ceil(totalCount / limit)` (embedded for `limit ≥ 1` as
`(totalCount + limit - 1) / limit`). -/
def getUserActivities (store : List Activity) (organizerId : String)
    (page : Nat := 1) (limit : Nat := 10) : PageResult :=
  let userActivities := store.filter fun activity =>
    activity.userId == organizerId || organizerId == "current-user"
  let userActivities := if userActivities.length == 0 then store else userActivities
  let offset := (page - 1) * limit
  let paginatedActivities := (userActivities.drop offset).take limit
  let totalCount := userActivities.length
  let totalPages := (totalCount + limit - 1) / limit
  { activities := paginatedActivities
    pagination :=
      { page := page
        limit := limit
        total := totalCount
        totalPages := totalPages
        hasNext := page < totalPages
        hasPrevious := page > 1 } }

/-- `updateActivity` (`activities.api.ts` lines 402-456, mock path): find the
record by id (`NotFound` when absent), reject a caller who is not the stored
owner (`PermissionDenied`), otherwise overwrite the form fields and
`updatedAt := now`. Returns the outcome plus the store after the call (the
store is unchanged on error). -/
def updateActivity (store : List Activity) (id : String) (formData : ActivityFormData)
    (organizerId : String) (now : Nat) : Except ApiError Activity × List Activity :=
  match findIndex (fun a => a.id == id) store with
  | none => (Except.error ApiError.NotFound, store)
  | some activityIndex =>
    match store[activityIndex]? with
    | none => (Except.error ApiError.NotFound, store)
    | some existingActivity =>
      if existingActivity.userId != organizerId then
        (Except.error ApiError.PermissionDenied, store)
      else
        let updatedActivity : Activity :=
          { existingActivity with
            title := formData.title
            description := formData.description
            location := formData.location
            price := formData.price
            updatedAt := now }
        (Except.ok updatedActivity, store.set activityIndex updatedActivity)

/-- `deleteActivity` (`activities.api.ts` lines 465-499, mock path): find the
record by id (`NotFound` when absent), allow only the stored owner or the
admin sentinel `admin-user` (`PermissionDenied` otherwise), then mark the
record deleted and refresh `updatedAt`. Returns the outcome plus the store
after the call (the store is unchanged on error). -/
def deleteActivity (store : List Activity) (id : String) (organizerId : String)
    (now : Nat) : Except ApiError Unit × List Activity :=
  match findIndex (fun a => a.id == id) store with
  | none => (Except.error ApiError.NotFound, store)
  | some activityIndex =>
    match store[activityIndex]? with
    | none => (Except.error ApiError.NotFound, store)
    | some activity =>
      if activity.userId != organizerId && organizerId != "admin-user" then
        (Except.error ApiError.PermissionDenied, store)
      else
        (Except.ok (),
          store.set activityIndex { activity with isDeleted := true, updatedAt := now })

/-- The stats object of `getUserActivityStats`. -/
structure ActivityStats where
  total_activities : Nat
  active_activities : Nat
  pending_activities : Nat
  total_participants : Nat
  this_month_activities : Nat
deriving Repr, DecidableEq

/-- `getUserActivityStats` (`activities.api.ts` lines 575-618, mock path):
owner filter with the `current-user` sentinel and fall-back to all records,
then aggregate counts. `rand` stands for the drawn `Math.floor(Math.random()
* 200)` (so `rand < 200`); `nowMonth` / `nowYear` are the current date's
month and year. -/
def getUserActivityStats (store : List Activity) (organizerId : String)
    (rand nowMonth nowYear : Nat) : ActivityStats :=
  let userActivities := store.filter fun activity =>
    activity.userId == organizerId || organizerId == "current-user"
  let activities := if userActivities.length > 0 then userActivities else store
  { total_activities := activities.length
    active_activities := (activities.filter fun a => !a.isDeleted).length
    pending_activities := 2
    total_participants := rand + 50
    this_month_activities :=
      (activities.filter fun a =>
        a.createdMonth == nowMonth && a.createdYear == nowYear).length }

/-- `URLSearchParams.set`: replace the value of an existing key in place,
else append the pair at the end. -/
def setParam (params : List (String × String)) (key value : String) :
    List (String × String) :=
  if params.any (fun kv => kv.1 == key) then
    params.map (fun kv => if kv.1 == key then (key, value) else kv)
  else
    params ++ [(key, value)]

/-- The filter parameters of `getActivities`. `none` is a field left
undefined; string fields are also skipped when empty (JS truthiness). -/
structure ActivityFilters where
  type : Option String := none
  categoryId : Option String := none
  location : Option String := none
  minPrice : Option Nat := none
  maxPrice : Option Nat := none
  search : Option String := none
deriving Repr, DecidableEq

/-- The query parameters `getActivities` builds (`activities.api.ts` lines
140-187): select clause, the optional filters in source order, the
`is_deleted` exclusion, sort order and pagination. -/
def buildActivitiesQuery (filters : ActivityFilters) (page limit : Nat) :
    List (String × String) :=
  let q : List (String × String) := []
  let q := setParam q "select"
    "*,category:categories(*),organizer:users(full_name,organization_name,email)"
  let q := match filters.type with
    | some t => if t != "" then setParam q "type" ("eq." ++ t) else q
    | none => q
  let q := match filters.categoryId with
    | some c => if c != "" then setParam q "category_id" ("eq." ++ c) else q
    | none => q
  let q := match filters.location with
    | some loc => if loc != "" then setParam q "location" ("ilike.*" ++ loc ++ "*") else q
    | none => q
  let q := match filters.minPrice with
    | some m => setParam q "price" ("gte." ++ toString m)
    | none => q
  let q := match filters.maxPrice with
    | some m => setParam q "price" ("lte." ++ toString m)
    | none => q
  let q := match filters.search with
    | some s =>
      if s != "" then
        setParam q "or" ("(title.ilike.*" ++ s ++ "*,description.ilike.*" ++ s ++ "*)")
      else q
    | none => q
  let q := setParam q "is_deleted" "eq.false"
  let q := setParam q "order" "created_at.desc"
  let offset := (page - 1) * limit
  let q := setParam q "limit" (toString limit)
  let q := setParam q "offset" (toString offset)
  q

/-- A sample record for the concrete checks below. -/
def sampleActivity (id userId : String) (deleted : Bool := false) : Activity :=
  { id := id
    title := "Yoga Basics"
    description := "desc"
    location := "Helsinki"
    price := 10
    userId := userId
    isDeleted := deleted
    createdMonth := 5
    createdYear := 2024
    createdAt := 100
    updatedAt := 100 }

/-- `findIndex` finds nothing when no element satisfies the predicate. -/
theorem findIndex_eq_none_of_all {α : Type} (p : α → Bool) (l : List α)
    (h : ∀ a ∈ l, p a = false) : findIndex p l = none := by
  induction l with
  | nil => rfl
  | cons a rest ih =>
    unfold findIndex
    rw [h a (List.mem_cons_self a rest)]
    simp only [Bool.false_eq_true, if_false]
    rw [ih fun b hb => h b (List.mem_cons_of_mem a hb)]
    rfl

/-- A found index is inside the list. -/
theorem findIndex_lt_length {α : Type} (p : α → Bool) (l : List α) (i : Nat)
    (h : findIndex p l = some i) : i < l.length := by
  induction l generalizing i with
  | nil => cases h
  | cons a rest ih =>
    unfold findIndex at h
    by_cases ha : p a
    · simp only [ha, if_true, Option.some.injEq] at h
      subst h
      simp
    · simp only [ha, Bool.false_eq_true, if_false, Option.map_eq_some'] at h
      obtain ⟨j, hj, rfl⟩ := h
      have := ih j hj
      simp only [List.length_cons]
      omega

/-- The element at a found index satisfies the predicate. -/
theorem findIndex_found {α : Type} (p : α → Bool) (l : List α) (i : Nat) (a : α)
    (h : findIndex p l = some i) (hget : l[i]? = some a) : p a = true := by
  induction l generalizing i with
  | nil => cases h
  | cons b rest ih =>
    unfold findIndex at h
    by_cases hb : p b
    · simp only [hb, if_true, Option.some.injEq] at h
      subst h
      simp only [List.getElem?_cons_zero, Option.some.injEq] at hget
      subst hget
      exact hb
    · simp only [hb, Bool.false_eq_true, if_false, Option.map_eq_some'] at h
      obtain ⟨j, hj, rfl⟩ := h
      simp only [List.getElem?_cons_succ] at hget
      exact ih j hj hget

/-- Replacing the found element by one still satisfying the predicate keeps
the found index. -/
theorem findIndex_set_self {α : Type} (p : α → Bool) (l : List α) (i : Nat) (b : α)
    (h : findIndex p l = some i) (hb : p b = true) :
    findIndex p (l.set i b) = some i := by
  induction l generalizing i with
  | nil => cases h
  | cons a rest ih =>
    unfold findIndex at h
    by_cases ha : p a
    · simp only [ha, if_true, Option.some.injEq] at h
      subst h
      rw [List.set_cons_zero]
      unfold findIndex
      rw [hb]
      rfl
    · simp only [ha, Bool.false_eq_true, if_false, Option.map_eq_some'] at h
      obtain ⟨j, hj, rfl⟩ := h
      rw [List.set_cons_succ]
      unfold findIndex
      rw [if_neg ha, ih j hj]
      rfl

/-- C2: `getUserActivities` applies no `isDeleted` filter: on a store whose
only record is soft-deleted and owned by `u1`, the owner's first page still
contains that record with `isDeleted = true`, so soft-deleted records are
not excluded from this listing. -/
theorem getUserActivities_returns_soft_deleted :
    (getUserActivities [sampleActivity "a1" "u1" true] "u1" 1 10).activities
      = [sampleActivity "a1" "u1" true]
    ∧ (sampleActivity "a1" "u1" true).isDeleted = true := by
  constructor <;> rfl

/-- C3: pagination invariants of the listing result, for `limit ≥ 1` and a
1-based `page`: `totalPages` is the ceiling division of `total` by `limit`,
`hasNext = page < totalPages`, `hasPrevious = page > 1`, and the number of
items is `min limit (total - (page-1)·limit)` (`Nat` subtraction clamps at
0), hence at most `limit`. -/
theorem getUserActivities_pagination_invariant (store : List Activity)
    (organizerId : String) (page limit : Nat) (hlimit : 1 ≤ limit) (hpage : 1 ≤ page) :
    (getUserActivities store organizerId page limit).pagination.totalPages
      = (getUserActivities store organizerId page limit).pagination.total ⌈/⌉ limit
    ∧ (getUserActivities store organizerId page limit).pagination.hasNext
      = decide (page < (getUserActivities store organizerId page limit).pagination.totalPages)
    ∧ (getUserActivities store organizerId page limit).pagination.hasPrevious
      = decide (1 < page)
    ∧ (getUserActivities store organizerId page limit).activities.length
      = min limit ((getUserActivities store organizerId page limit).pagination.total
          - (page - 1) * limit)
    ∧ (getUserActivities store organizerId page limit).activities.length ≤ limit := by
  refine ⟨?_, rfl, rfl, ?_, ?_⟩
  · rw [Nat.ceilDiv_eq_add_pred_div]
    rfl
  · simp [getUserActivities, List.length_take, List.length_drop]
  · simp [getUserActivities, List.length_take, List.length_drop]

/-- C3, witness at a concrete input: one owned record, page 1, limit 10. -/
theorem getUserActivities_pagination_invariant_witness :
    (getUserActivities [sampleActivity "a1" "u1"] "u1" 1 10).pagination.totalPages
      = (getUserActivities [sampleActivity "a1" "u1"] "u1" 1 10).pagination.total ⌈/⌉ 10
    ∧ (getUserActivities [sampleActivity "a1" "u1"] "u1" 1 10).pagination.hasNext
      = decide (1 < (getUserActivities [sampleActivity "a1" "u1"] "u1" 1 10).pagination.totalPages)
    ∧ (getUserActivities [sampleActivity "a1" "u1"] "u1" 1 10).pagination.hasPrevious
      = decide (1 < 1)
    ∧ (getUserActivities [sampleActivity "a1" "u1"] "u1" 1 10).activities.length
      = min 10 ((getUserActivities [sampleActivity "a1" "u1"] "u1" 1 10).pagination.total
          - (1 - 1) * 10)
    ∧ (getUserActivities [sampleActivity "a1" "u1"] "u1" 1 10).activities.length ≤ 10 :=
  getUserActivities_pagination_invariant [sampleActivity "a1" "u1"] "u1" 1 10
    (by decide) (by decide)

/-- C4: `updateActivity` error behaviour: when no stored record has the
requested id the call fails with `NotFound` and the store is unchanged;
when the record found by id is owned by someone else — the caller not
being an admin — the call fails with `PermissionDenied` and the store is
unchanged. -/
theorem updateActivity_ownership (store : List Activity) (id : String)
    (fd : ActivityFormData) (organizerId : String) (now : Nat) :
    ((∀ a ∈ store, a.id ≠ id) →
      updateActivity store id fd organizerId now = (Except.error ApiError.NotFound, store))
    ∧ (∀ i rec, findIndex (fun a => a.id == id) store = some i →
        store[i]? = some rec → rec.userId ≠ organizerId → organizerId ≠ "admin-user" →
        updateActivity store id fd organizerId now
          = (Except.error ApiError.PermissionDenied, store)) := by
  constructor
  · intro hall
    have hnone : findIndex (fun a => a.id == id) store = none :=
      findIndex_eq_none_of_all _ _ fun a ha => by simp [hall a ha]
    unfold updateActivity
    rw [hnone]
  · intro i rec hfind hget howner hadmin
    have hne : (rec.userId != organizerId) = true := by
      simp [bne_iff_ne, howner]
    unfold updateActivity
    simp only [hfind, hget]
    rw [if_pos hne]

/-- C5: a deletion attempt by a caller who is neither the stored owner nor
the admin sentinel fails with `PermissionDenied` and leaves the store — in
particular the targeted record, its `isDeleted` flag included — untouched. -/
theorem deleteActivity_permission_denied (store : List Activity) (id organizerId : String)
    (now : Nat) (i : Nat) (rec : Activity)
    (hfind : findIndex (fun a => a.id == id) store = some i)
    (hget : store[i]? = some rec)
    (howner : rec.userId ≠ organizerId) (hadmin : organizerId ≠ "admin-user") :
    (deleteActivity store id organizerId now).1 = Except.error ApiError.PermissionDenied
    ∧ (deleteActivity store id organizerId now).2 = store
    ∧ (deleteActivity store id organizerId now).2[i]? = some rec := by
  have hcond : (rec.userId != organizerId && organizerId != "admin-user") = true := by
    simp [bne_iff_ne, howner, hadmin]
  unfold deleteActivity
  simp only [hfind, hget]
  rw [if_pos hcond]
  exact ⟨rfl, rfl, hget⟩

/-- C5, witness at a concrete input: `u2` cannot delete `u1`'s record. -/
theorem deleteActivity_permission_denied_witness :
    (deleteActivity [sampleActivity "a1" "u1"] "a1" "u2" 7).1
        = Except.error ApiError.PermissionDenied
    ∧ (deleteActivity [sampleActivity "a1" "u1"] "a1" "u2" 7).2
        = [sampleActivity "a1" "u1"]
    ∧ (deleteActivity [sampleActivity "a1" "u1"] "a1" "u2" 7).2[0]?
        = some (sampleActivity "a1" "u1") :=
  deleteActivity_permission_denied [sampleActivity "a1" "u1"] "a1" "u2" 7 0
    (sampleActivity "a1" "u1") (by decide) (by decide) (by decide) (by decide)

/-- C6: soft delete is idempotent: an authorized deletion succeeds, a second
deletion of the already-deleted record succeeds as well, the record stays
`isDeleted = true` with `updatedAt` the time of the respective call, and
with `t1 < t2` the second call advances `updatedAt`. -/
theorem deleteActivity_idempotent (store : List Activity) (id organizerId : String)
    (t1 t2 i : Nat) (rec : Activity)
    (hfind : findIndex (fun a => a.id == id) store = some i)
    (hget : store[i]? = some rec)
    (hauth : rec.userId = organizerId ∨ organizerId = "admin-user")
    (ht : t1 < t2) :
    (deleteActivity store id organizerId t1).1 = Except.ok ()
    ∧ (deleteActivity store id organizerId t1).2[i]?
        = some { rec with isDeleted := true, updatedAt := t1 }
    ∧ (deleteActivity (deleteActivity store id organizerId t1).2 id organizerId t2).1
        = Except.ok ()
    ∧ (deleteActivity (deleteActivity store id organizerId t1).2 id organizerId t2).2[i]?
        = some { rec with isDeleted := true, updatedAt := t2 }
    ∧ ({ rec with isDeleted := true, updatedAt := t1 } : Activity).updatedAt
        < ({ rec with isDeleted := true, updatedAt := t2 } : Activity).updatedAt := by
  have hlt : i < store.length := findIndex_lt_length _ _ _ hfind
  have hcond : (rec.userId != organizerId && organizerId != "admin-user") = false := by
    rcases hauth with h | h <;> simp [bne_iff_ne, h]
  have hr1 : deleteActivity store id organizerId t1
      = (Except.ok (), store.set i { rec with isDeleted := true, updatedAt := t1 }) := by
    unfold deleteActivity
    simp only [hfind, hget]
    rw [if_neg (by simp [hcond])]
  have hp : (rec.id == id) = true :=
    findIndex_found (fun a => a.id == id) store i rec hfind hget
  have hfind1 : findIndex (fun a => a.id == id)
      (store.set i { rec with isDeleted := true, updatedAt := t1 }) = some i :=
    findIndex_set_self (fun a => a.id == id) store i
      { rec with isDeleted := true, updatedAt := t1 } hfind hp
  have hget1 : (store.set i { rec with isDeleted := true, updatedAt := t1 })[i]?
      = some { rec with isDeleted := true, updatedAt := t1 } :=
    List.getElem?_set_self hlt
  have hcond1 : (({ rec with isDeleted := true, updatedAt := t1 } : Activity).userId
      != organizerId && organizerId != "admin-user") = false := hcond
  have hr2 : deleteActivity (store.set i { rec with isDeleted := true, updatedAt := t1 })
      id organizerId t2
      = (Except.ok (), (store.set i { rec with isDeleted := true, updatedAt := t1 }).set i
          { rec with isDeleted := true, updatedAt := t2 }) := by
    unfold deleteActivity
    simp only [hfind1, hget1]
    rw [if_neg (by simp [hcond1])]
  refine ⟨by rw [hr1], ?_, ?_, ?_, ht⟩
  · rw [hr1]
    exact hget1
  · rw [hr1]
    simp only
    rw [hr2]
  · rw [hr1]
    simp only
    rw [hr2]
    simp only
    exact List.getElem?_set_self (by simpa using hlt)

/-- C6, witness at a concrete input: the owner deletes twice at times 3
and 8. -/
theorem deleteActivity_idempotent_witness :
    (deleteActivity [sampleActivity "a1" "u1"] "a1" "u1" 3).1 = Except.ok ()
    ∧ (deleteActivity [sampleActivity "a1" "u1"] "a1" "u1" 3).2[0]?
        = some { sampleActivity "a1" "u1" with isDeleted := true, updatedAt := 3 }
    ∧ (deleteActivity (deleteActivity [sampleActivity "a1" "u1"] "a1" "u1" 3).2
        "a1" "u1" 8).1 = Except.ok ()
    ∧ (deleteActivity (deleteActivity [sampleActivity "a1" "u1"] "a1" "u1" 3).2
        "a1" "u1" 8).2[0]?
        = some { sampleActivity "a1" "u1" with isDeleted := true, updatedAt := 8 }
    ∧ ({ sampleActivity "a1" "u1" with isDeleted := true, updatedAt := 3 } : Activity).updatedAt
        < ({ sampleActivity "a1" "u1" with isDeleted := true, updatedAt := 8 } : Activity).updatedAt :=
  deleteActivity_idempotent [sampleActivity "a1" "u1"] "a1" "u1" 3 8 0
    (sampleActivity "a1" "u1") (by decide) (by decide) (Or.inl rfl) (by decide)

/-- C7, counterexample: with the sentinel organizerId `current-user` the
filter keeps every record, so although a record owned by `current-user`
exists in the store, the result still contains another owner's record —
not "only that owner's records". -/
theorem getUserActivities_sentinel_counterexample :
    (∃ a ∈ [sampleActivity "a1" "current-user", sampleActivity "a2" "u2"],
        a.userId = "current-user")
    ∧ (getUserActivities [sampleActivity "a1" "current-user", sampleActivity "a2" "u2"]
        "current-user" 1 10).activities.map Activity.userId = ["current-user", "u2"] := by
  constructor
  · exact ⟨sampleActivity "a1" "current-user", by simp, rfl⟩
  · rfl

/-- C7, amended: for an organizerId other than the sentinel `current-user`,
when no stored record is owned by it the result is a page over ALL records
(the fallback), and when some record is owned by it only that owner's
records are returned; the sentinel `current-user` always selects the whole
store. -/
theorem getUserActivities_owner_fallback (store : List Activity) (organizerId : String)
    (page limit : Nat) :
    (organizerId = "current-user" →
      (getUserActivities store organizerId page limit).activities
        = (store.drop ((page - 1) * limit)).take limit)
    ∧ (organizerId ≠ "current-user" →
        ((∀ a ∈ store, a.userId ≠ organizerId) →
          (getUserActivities store organizerId page limit).activities
            = (store.drop ((page - 1) * limit)).take limit)
        ∧ ((∃ a ∈ store, a.userId = organizerId) →
            ∀ a ∈ (getUserActivities store organizerId page limit).activities,
              a.userId = organizerId)) := by
  refine ⟨?_, fun hsent => ⟨?_, ?_⟩⟩
  · intro h
    subst h
    unfold getUserActivities
    simp only [beq_self_eq_true, Bool.or_true, List.filter_true, ite_self]
  · intro hnone
    have hfilter : store.filter
        (fun activity => activity.userId == organizerId || organizerId == "current-user")
        = [] := by
      rw [List.filter_eq_nil_iff]
      intro a ha
      simp [hnone a ha, hsent]
    unfold getUserActivities
    simp [hfilter]
  · rintro ⟨w, hw, hww⟩ a ha
    have hmem : w ∈ store.filter
        (fun activity => activity.userId == organizerId || organizerId == "current-user") := by
      rw [List.mem_filter]
      exact ⟨hw, by simp [hww]⟩
    have hlen : (store.filter
        (fun activity => activity.userId == organizerId || organizerId == "current-user")).length
        ≠ 0 := by
      simpa [List.length_eq_zero] using List.ne_nil_of_mem hmem
    have hcond : ((store.filter
        (fun activity => activity.userId == organizerId || organizerId == "current-user")).length
        == 0) = false := by
      simp [hlen]
    unfold getUserActivities at ha
    simp only [hcond, Bool.false_eq_true, if_false] at ha
    have hmema : a ∈ store.filter
        (fun activity => activity.userId == organizerId || organizerId == "current-user") :=
      List.mem_of_mem_drop (List.mem_of_mem_take ha)
    have hpred := (List.mem_filter.mp hmema).2
    simpa [hsent] using hpred

/-- C9: the price-range slip evaluated: with `minPrice = 10` and `maxPrice =
20` both set, the only `price` entry of the built query is the upper bound
`lte.20` — the second `URLSearchParams.set` on the `price` key overwrote
the `gte.10` lower bound, so no lower-bound constraint is issued. -/
theorem buildActivitiesQuery_price_overwritten :
    ((buildActivitiesQuery { minPrice := some 10, maxPrice := some 20 } 1 10).filter
      fun kv => kv.1 == "price") = [("price", "lte.20")] := by
  rfl

/-- C10: the stats result has `pending_activities` hard-coded to 2 and
`total_participants = rand + 50 ∈ [50, 249]` where `rand < 200` is the
drawn random value — the same for any two stores and owners, so the field
aggregates nothing; the final conjunct shows two draws on the same store
yielding different counts. -/
theorem getUserActivityStats_constants (store store2 : List Activity)
    (organizerId organizerId2 : String)
    (rand nowMonth nowYear nowMonth2 nowYear2 : Nat) (hrand : rand < 200) :
    (getUserActivityStats store organizerId rand nowMonth nowYear).pending_activities = 2
    ∧ 50 ≤ (getUserActivityStats store organizerId rand nowMonth nowYear).total_participants
    ∧ (getUserActivityStats store organizerId rand nowMonth nowYear).total_participants ≤ 249
    ∧ (getUserActivityStats store organizerId rand nowMonth nowYear).total_participants
        = (getUserActivityStats store2 organizerId2 rand nowMonth2 nowYear2).total_participants
    ∧ (getUserActivityStats store organizerId 0 nowMonth nowYear).total_participants
        ≠ (getUserActivityStats store organizerId 1 nowMonth nowYear).total_participants := by
  refine ⟨rfl, ?_, ?_, rfl, ?_⟩
  · show 50 ≤ rand + 50
    omega
  · show rand + 50 ≤ 249
    omega
  · show (0 : Nat) + 50 ≠ 1 + 50
    omega

/-- C10, witness at a concrete input: empty store, drawn value 7. -/
theorem getUserActivityStats_constants_witness :
    (getUserActivityStats [] "u1" 7 5 2024).pending_activities = 2
    ∧ 50 ≤ (getUserActivityStats [] "u1" 7 5 2024).total_participants
    ∧ (getUserActivityStats [] "u1" 7 5 2024).total_participants ≤ 249
    ∧ (getUserActivityStats [] "u1" 7 5 2024).total_participants
        = (getUserActivityStats [sampleActivity "a1" "u1"] "u2" 7 6 2025).total_participants
    ∧ (getUserActivityStats [] "u1" 0 5 2024).total_participants
        ≠ (getUserActivityStats [] "u1" 1 5 2024).total_participants :=
  getUserActivityStats_constants [] [sampleActivity "a1" "u1"] "u1" "u2" 7 5 2024 6 2025
    (by decide)

/-- The consecutive run of integers from `start` to `stop` inclusive: the
`for (let i = start; i <= end; i++) pages.push(i)` loop of the Pagination
component. -/
def intRange (start stop : Int) : List Int :=
  (List.range (stop + 1 - start).toNat).map fun (k : Nat) => start + (k : Int)

/-- `getPageNumbers` of the `Pagination` component (Table source, lines
192-207): a window of at most `maxPageButtons` page numbers around
`currentPage`, clamped to `[1, totalPages]`, re-centered when the naive
window is cut short at a bound. `Math.floor(maxPageButtons / 2)` is integer
division; JS `end` is named `stop` here. -/
def getPageNumbers (currentPage totalPages maxPageButtons : Int) : List Int :=
  let halfRange := maxPageButtons / 2
  let start := max 1 (currentPage - halfRange)
  let stop := min totalPages (start + maxPageButtons - 1)
  let start := if stop - start + 1 < maxPageButtons then max 1 (stop - maxPageButtons + 1)
    else start
  intRange start stop

/-- Length of an integer run. -/
theorem length_intRange (start stop : Int) :
    (intRange start stop).length = (stop + 1 - start).toNat := by
  unfold intRange
  rw [List.length_map, List.length_range]

/-- Membership in an integer run is being between the bounds. -/
theorem mem_intRange (p start stop : Int) :
    p ∈ intRange start stop ↔ start ≤ p ∧ p ≤ stop := by
  unfold intRange
  rw [List.mem_map]
  constructor
  · rintro ⟨k, hk, rfl⟩
    rw [List.mem_range] at hk
    omega
  · rintro ⟨h1, h2⟩
    refine ⟨(p - start).toNat, ?_, by omega⟩
    rw [List.mem_range]
    omega

/-- C8: for `1 ≤ currentPage ≤ totalPages` and window size `w ≥ 1`, the
page-number window equals the run `[start, end]` with
`start₀ = max 1 (currentPage - w/2)`, `end = min totalPages (start₀ + w - 1)`
and the re-centered `start = max 1 (end - w + 1)`; consequently it is a
consecutive run of at most `w` page numbers inside `[1, totalPages]` that
contains `currentPage`. -/
theorem getPageNumbers_window (currentPage totalPages w : Int)
    (hcur1 : 1 ≤ currentPage) (hcur2 : currentPage ≤ totalPages) (hw : 1 ≤ w) :
    getPageNumbers currentPage totalPages w
      = intRange (max 1 (min totalPages (max 1 (currentPage - w / 2) + w - 1) - w + 1))
          (min totalPages (max 1 (currentPage - w / 2) + w - 1))
    ∧ (getPageNumbers currentPage totalPages w).length ≤ w.toNat
    ∧ (∀ p ∈ getPageNumbers currentPage totalPages w, 1 ≤ p ∧ p ≤ totalPages)
    ∧ currentPage ∈ getPageNumbers currentPage totalPages w := by
  have hstep : getPageNumbers currentPage totalPages w
      = intRange (max 1 (min totalPages (max 1 (currentPage - w / 2) + w - 1) - w + 1))
          (min totalPages (max 1 (currentPage - w / 2) + w - 1)) := by
    simp only [getPageNumbers]
    by_cases hc : min totalPages (max 1 (currentPage - w / 2) + w - 1)
        - max 1 (currentPage - w / 2) + 1 < w
    · rw [if_pos hc]
    · rw [if_neg hc]
      congr 1
      omega
  refine ⟨hstep, ?_, ?_, ?_⟩
  · rw [hstep, length_intRange]
    omega
  · intro p hp
    rw [hstep, mem_intRange] at hp
    omega
  · rw [hstep, mem_intRange]
    omega

/-- C8, witness at a concrete input: page 3 of 10 with the default window
size 5 shows pages 1 to 5. -/
theorem getPageNumbers_window_witness :
    getPageNumbers 3 10 5
      = intRange (max 1 (min 10 (max 1 (3 - 5 / 2) + 5 - 1) - 5 + 1))
          (min 10 (max 1 (3 - 5 / 2) + 5 - 1))
    ∧ (getPageNumbers 3 10 5).length ≤ (5 : Int).toNat
    ∧ (∀ p ∈ getPageNumbers 3 10 5, 1 ≤ p ∧ p ≤ 10)
    ∧ (3 : Int) ∈ getPageNumbers 3 10 5 :=
  getPageNumbers_window 3 10 5 (by decide) (by decide) (by decide)
